import Mathlib

/-! Verification of hw_stats.c : sampling, rolling history and chart rendering.

A shallow embedding of `src/hw_stats.c` and the properties of its metric readers, its history
store and its chart renderer.

Modelling conventions.

* C `double` values are exact rationals (`ℚ`): every result below is about the arithmetic the
  code writes down, not about binary rounding.
* `unsigned long long` values are natural numbers reduced modulo `U64 = 2 ^ 64` after every
  addition and subtraction.
* `int` pixel coordinates are integers (`Int`), without wrap-around (signed overflow is
  undefined in C and no result below relies on it); `history_count` and `points`, which the
  program only ever holds at values `0 .. HISTORY_SIZE`, are natural numbers.
* A C string is the list of its characters before the terminating NUL.
* A file is what the reads deliver: `none` when `fopen` (or the first `fgets`) fails, otherwise
  the line(s) handed out by `fgets`.
* The three static history arrays are lists; all results about them assume the length
  `HISTORY_SIZE` the C declaration fixes.
* The drawing context is the list of cairo calls made, in order.
-/

namespace HwStats

/-! ## Constants -/

/-- The constant `#define HISTORY_SIZE 200`. -/
def HISTORY_SIZE : Nat := 200

/-- The constant `#define GRAPH_HEIGHT 100`. -/
def GRAPH_HEIGHT : Int := 100

/-- The constant `#define GRAPH_MARGIN 10`. -/
def GRAPH_MARGIN : Int := 10

/-- The constant `#define V_SPACING 60`. -/
def V_SPACING : Int := 60

/-- One more than `ULLONG_MAX`: `unsigned long long` arithmetic is arithmetic modulo `U64`. -/
def U64 : Nat := 2 ^ 64

/-! ## C library pieces used by the readers -/

/-- The predicate `isspace` of the C locale. -/
def isspace (c : Char) : Bool :=
  c = ' ' || c = '\t' || c = '\n' || c = '\x0b' || c = '\x0c' || c = '\r'

/-- The predicate `isdigit`. -/
def isdigit (c : Char) : Bool := '0' ≤ c && c ≤ '9'

/-- The value `c - '0'` of a digit character. -/
def digit_value (c : Char) : Nat := c.toNat - '0'.toNat

/-- Decimal value of a run of digit characters. -/
def digits_to_nat (ds : List Char) : Nat :=
  ds.foldl (fun acc c => acc * 10 + digit_value c) 0

/-- Ordinary characters of a `sscanf` format: each must equal the next input character.
Returns the unread rest of the input. -/
def match_literal : List Char → List Char → Option (List Char)
  | [], s => some s
  | _ :: _, [] => none
  | f :: fs, c :: cs => if f = c then match_literal fs cs else none

/-- The `sscanf` directive `" %llu"`: skip white space, read an optionally signed run of decimal
digits as `strtoull` does (a value beyond `ULLONG_MAX` reads as `ULLONG_MAX`, a leading `-`
negates modulo `2 ^ 64`), and return the value with the unread rest. `none` is a matching or
input failure. -/
def scan_llu (s : List Char) : Option (Nat × List Char) :=
  let s1 := s.dropWhile isspace
  let neg : Bool := s1.head? = some '-'
  let s2 := if s1.head? = some '-' ∨ s1.head? = some '+' then s1.tail else s1
  let ds := s2.takeWhile isdigit
  if ds = [] then none
  else
    let m := digits_to_nat ds
    let v := if U64 ≤ m then U64 - 1 else if neg then (U64 - m) % U64 else m
    some (v, s2.dropWhile isdigit)

/-- Up to `n` consecutive `" %llu"` directives; the values converted before the first failure. -/
def scan_fields : Nat → List Char → List Nat
  | 0, _ => []
  | n + 1, s =>
    match scan_llu s with
    | none => []
    | some (v, rest) => v :: scan_fields n rest

/-- The call `sscanf(line, "cpu %llu %llu %llu %llu %llu %llu %llu %llu %llu %llu", ...)`:
the list of converted counters; its length is the value `n` the call returns (an `EOF` result
counts as no counter). -/
def sscanf_cpu (line : List Char) : List Nat :=
  match match_literal ['c', 'p', 'u'] line with
  | none => []
  | some rest => scan_fields 10 rest

/-- The call `sscanf(line, "<key> %llu kB", &v)`: `some v` when it returns 1. -/
def sscanf_kb (key line : List Char) : Option Nat :=
  match match_literal key line with
  | none => none
  | some rest => (scan_llu rest).map Prod.fst

/-- Format literal `MemTotal:`. -/
def KEY_MemTotal : List Char := ['M', 'e', 'm', 'T', 'o', 't', 'a', 'l', ':']

/-- Format literal `MemAvailable:`. -/
def KEY_MemAvailable : List Char :=
  ['M', 'e', 'm', 'A', 'v', 'a', 'i', 'l', 'a', 'b', 'l', 'e', ':']

/-- Format literal `MemFree:`. -/
def KEY_MemFree : List Char := ['M', 'e', 'm', 'F', 'r', 'e', 'e', ':']

/-- Format literal `Buffers:`. -/
def KEY_Buffers : List Char := ['B', 'u', 'f', 'f', 'e', 'r', 's', ':']

/-- Format literal `Cached:`. -/
def KEY_Cached : List Char := ['C', 'a', 'c', 'h', 'e', 'd', ':']

/-! ## parse_temp_from_string (lines 35-63) -/

/-- Local variables of `parse_temp_from_string`. -/
structure TempScan where
  found_digit : Bool
  val : ℚ
  frac : ℚ
  scale : ℚ
  in_frac : Bool
deriving DecidableEq

/-- The `while (*p)` loop of `parse_temp_from_string`, one character per step; leaving the
recursion without a recursive call is the `break`. -/
def temp_scan_loop : List Char → TempScan → TempScan
  | [], st => st
  | c :: cs, st =>
    if isdigit c then
      if !st.in_frac then
        temp_scan_loop cs { st with found_digit := true, val := st.val * 10 + (digit_value c : ℚ) }
      else
        temp_scan_loop cs
          { st with found_digit := true, frac := st.frac * 10 + (digit_value c : ℚ),
                    scale := st.scale * 10 }
    else if c = '.' && st.found_digit && !st.in_frac then
      temp_scan_loop cs { st with in_frac := true }
    else if st.found_digit then st
    else temp_scan_loop cs st

/-- The function `parse_temp_from_string(s, out_temp)`: the returned `int` and the content of
`*out_temp` after the call (`out_temp` is its content before the call). -/
def parse_temp_from_string (s : List Char) (out_temp : ℚ) : Int × ℚ :=
  let st := temp_scan_loop s
    { found_digit := false, val := 0, frac := 0, scale := 1, in_frac := false }
  if !st.found_digit then (0, out_temp)
  else (1, if st.scale > 1 then st.val + st.frac / st.scale else st.val)

/-! ## read_cpu_usage (lines 95-129) -/

/-- The statics `prev_total`, `prev_idle`, `cpu_prev_ready`. -/
structure CpuState where
  prev_total : Nat
  prev_idle : Nat
  cpu_prev_ready : Bool
deriving DecidableEq

/-- The function `read_cpu_usage()`. `src` is the first line of `/proc/stat` as `fgets`
returns it, `none` when the file cannot be opened or read. Result: the returned usage and the
statics after the call. -/
def read_cpu_usage (st : CpuState) (src : Option (List Char)) : ℚ × CpuState :=
  match src with
  | none => (0, st)
  | some line =>
    let f := sscanf_cpu line
    if f.length < 4 then (0, st)
    else
      let user := f.getD 0 0
      let nice := f.getD 1 0
      let system := f.getD 2 0
      let idle := f.getD 3 0
      let iowait := f.getD 4 0
      let irq := f.getD 5 0
      let softirq := f.getD 6 0
      let steal := f.getD 7 0
      let idle_all := (idle + iowait) % U64
      let non_idle := (user + nice + system + irq + softirq + steal) % U64
      let total := (idle_all + non_idle) % U64
      let usage : ℚ :=
        if st.cpu_prev_ready then
          let totald := (total + U64 - st.prev_total) % U64
          let idled := (idle_all + U64 - st.prev_idle) % U64
          if totald > 0 then (((totald + U64 - idled) % U64 : Nat) : ℚ) * 100 / (totald : ℚ)
          else 0
        else 0
      (usage, { prev_total := total, prev_idle := idle_all, cpu_prev_ready := true })

/-! ## read_mem_usage_percent (lines 132-154) -/

/-- One fallback statement `if (mem_avail == 0 && sscanf(line, "<key> %llu kB", &v) == 1)
mem_avail += v;`. -/
def fallback_add (mem_avail : Nat) (key line : List Char) : Nat :=
  if mem_avail = 0 then
    match sscanf_kb key line with
    | some v => (mem_avail + v) % U64
    | none => mem_avail
  else mem_avail

/-- Body of the `while (fgets ...)` loop on the pair `(mem_total, mem_avail)`. -/
def mem_line (st : Nat × Nat) (line : List Char) : Nat × Nat :=
  match sscanf_kb KEY_MemTotal line with
  | some v => (v, st.2)
  | none =>
    match sscanf_kb KEY_MemAvailable line with
    | some v => (st.1, v)
    | none =>
      let a1 := fallback_add st.2 KEY_MemFree line
      let a2 := fallback_add a1 KEY_Buffers line
      let a3 := fallback_add a2 KEY_Cached line
      (st.1, a3)

/-- The function `read_mem_usage_percent()`. `src` is the list of lines `fgets` delivers from
`/proc/meminfo`, `none` when the file cannot be opened. -/
def read_mem_usage_percent (src : Option (List (List Char))) : ℚ :=
  match src with
  | none => 0
  | some lines =>
    let st := lines.foldl mem_line (0, 0)
    let mem_total := st.1
    if mem_total = 0 then 0
    else
      let mem_avail := if st.2 > mem_total then mem_total else st.2
      let used_percent : ℚ := (1 - (mem_avail : ℚ) / (mem_total : ℚ)) * 100
      let used_percent := if used_percent < 0 then 0 else used_percent
      let used_percent := if used_percent > 100 then 100 else used_percent
      used_percent

/-! ## History store (lines 24-27, 193-207) -/

/-- The statics `temp_history`, `cpu_history`, `mem_history`, `history_count`. -/
structure Store where
  temp_history : List ℚ
  cpu_history : List ℚ
  mem_history : List ℚ
  history_count : Nat
deriving DecidableEq

/-- The call `memmove(&arr[0], &arr[1], sizeof(double) * n)`: cells `0 .. n-1` receive the old
cells `1 .. n`, the cells from `n` on are untouched. -/
def memmove_left (arr : List ℚ) (n : Nat) : List ℚ :=
  (arr.drop 1).take n ++ arr.drop n

/-- The function `shift_and_add(arr, value)`, with the global `history_count` it reads. -/
def shift_and_add (history_count : Nat) (arr : List ℚ) (value : ℚ) : List ℚ :=
  if history_count < HISTORY_SIZE then
    arr.set history_count value
  else
    (memmove_left arr (HISTORY_SIZE - 1)).set (HISTORY_SIZE - 1) value

/-- The function `add_samples(t, cpu, mem)`: the counter is advanced first, then each array is
updated by `shift_and_add`, which reads the advanced counter. -/
def add_samples (s : Store) (t cpu mem : ℚ) : Store :=
  let history_count :=
    if s.history_count < HISTORY_SIZE then s.history_count + 1 else s.history_count
  { temp_history := shift_and_add history_count s.temp_history t
    cpu_history := shift_and_add history_count s.cpu_history cpu
    mem_history := shift_and_add history_count s.mem_history mem
    history_count := history_count }

/-- A sequence of `add_samples` calls, one per triple `(t, cpu, mem)`, first triple first. -/
def run_add_samples (s : Store) (pushes : List (ℚ × ℚ × ℚ)) : Store :=
  pushes.foldl (fun st p => add_samples st p.1 p.2.1 p.2.2) s

/-- The store as the C statics are initialised: zeroed arrays, `history_count = 0`. -/
def zero_store : Store :=
  { temp_history := List.replicate HISTORY_SIZE 0
    cpu_history := List.replicate HISTORY_SIZE 0
    mem_history := List.replicate HISTORY_SIZE 0
    history_count := 0 }

/-- One array seen alone, as a pair (`history_count`, array): the counter update of
`add_samples` followed by one `shift_and_add`. -/
def push_one (st : Nat × List ℚ) (v : ℚ) : Nat × List ℚ :=
  let c := if st.1 < HISTORY_SIZE then st.1 + 1 else st.1
  (c, shift_and_add c st.2 v)

/-! ## Renderer (lines 210-302) -/

/-- Text handed to `cairo_show_text`. -/
inductive Text where
  /-- A string constant. -/
  | lit (s : String)
  /-- The buffer filled by `snprintf(lab, sizeof(lab), "%.1f", v)`. -/
  | fmt_1f (v : ℚ)
deriving DecidableEq

/-- The cairo calls the renderer makes. The last argument of `cairo_arc` is recorded in
multiples of `G_PI` (the code passes `2 * G_PI`). -/
inductive Cmd where
  | cairo_set_source_rgb (r g b : ℚ)
  | cairo_set_source_rgba (r g b a : ℚ)
  | cairo_rectangle (x y w h : ℚ)
  | cairo_fill
  | cairo_stroke
  | cairo_set_line_width (w : ℚ)
  | cairo_set_font_size (sz : ℚ)
  | cairo_move_to (x y : ℚ)
  | cairo_line_to (x y : ℚ)
  | cairo_show_text (t : Text)
  | cairo_arc (xc yc radius angle1 angle2_in_pi : ℚ)
deriving DecidableEq

/-- One round of the grid loop (lines 226-230) for loop index `i`. -/
def grid_line (g_x g_y g_w g_h : Int) (i : Int) : List Cmd :=
  let yy : ℚ := (g_y : ℚ) + ((g_h * i : Int) : ℚ) / 4
  [Cmd.cairo_move_to (g_x : ℚ) yy, Cmd.cairo_line_to ((g_x + g_w : Int) : ℚ) yy]

/-- Lines 213-242 of `draw_single_graph`: background, border, grid, max and min labels. -/
def chart_frame (g_x g_y g_w g_h : Int) (minv maxv : ℚ) : List Cmd :=
  [Cmd.cairo_set_source_rgb 0.08 0.08 0.08,
   Cmd.cairo_rectangle (g_x : ℚ) (g_y : ℚ) (g_w : ℚ) (g_h : ℚ),
   Cmd.cairo_fill,
   Cmd.cairo_set_line_width 1,
   Cmd.cairo_set_source_rgb 0.25 0.25 0.25,
   Cmd.cairo_rectangle ((g_x - 1 : Int) : ℚ) ((g_y - 1 : Int) : ℚ) ((g_w + 2 : Int) : ℚ)
     ((g_h + 2 : Int) : ℚ),
   Cmd.cairo_stroke,
   Cmd.cairo_set_source_rgba 1 1 1 0.06]
  ++ grid_line g_x g_y g_w g_h 0 ++ grid_line g_x g_y g_w g_h 1 ++ grid_line g_x g_y g_w g_h 2
  ++ grid_line g_x g_y g_w g_h 3 ++ grid_line g_x g_y g_w g_h 4
  ++ [Cmd.cairo_stroke,
      Cmd.cairo_set_font_size 11,
      Cmd.cairo_set_source_rgb 1 1 1,
      Cmd.cairo_move_to ((g_x + g_w + 6 : Int) : ℚ) ((g_y + 10 : Int) : ℚ),
      Cmd.cairo_show_text (Text.fmt_1f maxv),
      Cmd.cairo_move_to ((g_x + g_w + 6 : Int) : ℚ) ((g_y + g_h : Int) : ℚ),
      Cmd.cairo_show_text (Text.fmt_1f minv)]

/-- Lines 268-272 of `draw_single_graph`: the title. -/
def chart_title (g_x g_y : Int) (title : String) : List Cmd :=
  [Cmd.cairo_set_source_rgb 1 1 1,
   Cmd.cairo_set_font_size 13,
   Cmd.cairo_move_to (g_x : ℚ) ((g_y - 6 : Int) : ℚ),
   Cmd.cairo_show_text (Text.lit title)]

/-- Lines 250-252: the local `normalized` for sample value `v`. -/
def normalized (v minv maxv : ℚ) : ℚ :=
  let n := (v - minv) / (maxv - minv)
  let n := if n < 0 then 0 else n
  let n := if n > 1 then 1 else n
  n

/-- Line 249: the local `x` of loop round `i`. -/
def vertex_x (g_x g_w : Int) (pts i : Nat) : ℚ :=
  if pts > 1 then (g_x : ℚ) + ((i : ℚ) * (g_w : ℚ)) / (((pts : Int) - 1 : Int) : ℚ)
  else ((g_x + g_w : Int) : ℚ)

/-- Line 253: the local `y` for sample value `v`. -/
def vertex_y (g_y g_h : Int) (v minv maxv : ℚ) : ℚ :=
  (g_y : ℚ) + ((g_h : ℚ) - normalized v minv maxv * (g_h : ℚ))

/-- The loop of lines 248-256: one `cairo_move_to` for `i = 0`, one `cairo_line_to` for every
later `i`. -/
def polyline (g_x g_y g_w g_h : Int) (history : List ℚ) (pts : Nat) (minv maxv : ℚ) :
    List Cmd :=
  (List.range pts).map fun i =>
    if i = 0 then
      Cmd.cairo_move_to (vertex_x g_x g_w pts i) (vertex_y g_y g_h (history.getD i 0) minv maxv)
    else
      Cmd.cairo_line_to (vertex_x g_x g_w pts i) (vertex_y g_y g_h (history.getD i 0) minv maxv)

/-- Line 262: the local `latest_x`. -/
def latest_x (g_x g_w : Int) (pts : Nat) : ℚ :=
  if pts > 1 then
    (g_x : ℚ) + ((((pts : Int) - 1 : Int) : ℚ) * (g_w : ℚ)) / (((pts : Int) - 1 : Int) : ℚ)
  else ((g_x + g_w : Int) : ℚ)

/-- Line 263: the local `latest_y`. -/
def latest_y (g_y g_h : Int) (history : List ℚ) (pts : Nat) (minv maxv : ℚ) : ℚ :=
  (g_y : ℚ) + ((g_h : ℚ) - ((history.getD (pts - 1) 0 - minv) / (maxv - minv)) * (g_h : ℚ))

/-- The function `draw_single_graph`. -/
def draw_single_graph (g_x g_y g_w g_h : Int) (title : String) (history : List ℚ) (points : Nat)
    (minv maxv r g b : ℚ) : List Cmd :=
  chart_frame g_x g_y g_w g_h minv maxv
  ++ (if points > 0 then
        polyline g_x g_y g_w g_h history points minv maxv
        ++ [Cmd.cairo_set_source_rgb r g b,
            Cmd.cairo_set_line_width 2,
            Cmd.cairo_stroke,
            Cmd.cairo_arc (latest_x g_x g_w points)
              (latest_y g_y g_h history points minv maxv) 3 0 2,
            Cmd.cairo_fill]
      else [])
  ++ chart_title g_x g_y title

/-- The function `draw_graph_cairo`, reading the store. -/
def draw_graph_cairo (s : Store) (width height : Int) : List Cmd :=
  let g_x := GRAPH_MARGIN
  let g_w := width - 2 * GRAPH_MARGIN
  let total_h := GRAPH_HEIGHT * 3 + V_SPACING * 2
  let start_y := if height - total_h - 8 < 30 then 30 else height - total_h - 8
  let points := if s.history_count > 0 then s.history_count else 1
  let cpu_y := start_y + GRAPH_HEIGHT + V_SPACING
  let mem_y := cpu_y + GRAPH_HEIGHT + V_SPACING
  [Cmd.cairo_set_source_rgb 0.06 0.06 0.06,
   Cmd.cairo_rectangle 0 0 (width : ℚ) (height : ℚ),
   Cmd.cairo_fill]
  ++ draw_single_graph g_x start_y g_w GRAPH_HEIGHT "Temperature (°C)" s.temp_history points
      30 85 0.1 0.9 0.2
  ++ draw_single_graph g_x cpu_y g_w GRAPH_HEIGHT "CPU Usage (%)" s.cpu_history points
      0 100 0.2 0.6 0.95
  ++ draw_single_graph g_x mem_y g_w GRAPH_HEIGHT "Memory Used (%)" s.mem_history points
      0 100 0.95 0.5 0.1

/-! ## Specification-side definitions -/

/-- Spec side: the first decimal numeral of `s` as the pair (D, F): D is the first maximal run
of digits, F the run of digits after a `.` that follows D directly (empty otherwise). `none`
when `s` has no digit. -/
def first_numeral (s : List Char) : Option (List Char × List Char) :=
  let t := s.dropWhile (fun c => !isdigit c)
  if t = [] then none
  else
    let D := t.takeWhile isdigit
    let F := match t.dropWhile isdigit with
      | '.' :: r => r.takeWhile isdigit
      | _ => []
    some (D, F)

/-- Spec side: the numeral (D, F) read as D + F / 10^|F|. -/
def numeral_value (DF : List Char × List Char) : ℚ :=
  (digits_to_nat DF.1 : ℚ) + (digits_to_nat DF.2 : ℚ) / (10 : ℚ) ^ DF.2.length

/-- Spec side: idle_all = idle + iowait, over exact numbers. -/
def spec_idle_all (f : List Nat) : ℚ := (f.getD 3 0 : ℚ) + (f.getD 4 0 : ℚ)

/-- Spec side: non_idle = user + nice + system + irq + softirq + steal. -/
def spec_non_idle (f : List Nat) : ℚ :=
  (f.getD 0 0 : ℚ) + (f.getD 1 0 : ℚ) + (f.getD 2 0 : ℚ) + (f.getD 5 0 : ℚ) + (f.getD 6 0 : ℚ)
    + (f.getD 7 0 : ℚ)

/-- Spec side: total = idle_all + non_idle. -/
def spec_total (f : List Nat) : ℚ := spec_idle_all f + spec_non_idle f

/-- Spec side: usage from two consecutive counter snapshots,
(dtotal - didle_all) / dtotal * 100, and 0 when dtotal = 0. -/
def spec_cpu_usage (f1 f2 : List Nat) : ℚ :=
  let dtotal := spec_total f2 - spec_total f1
  let didle_all := spec_idle_all f2 - spec_idle_all f1
  if dtotal = 0 then 0 else (dtotal - didle_all) / dtotal * 100

/-- Sum of the eight counters that enter total, as a natural number (no reduction). -/
def counters_sum (f : List Nat) : Nat :=
  f.getD 0 0 + f.getD 1 0 + f.getD 2 0 + f.getD 3 0 + f.getD 4 0 + f.getD 5 0 + f.getD 6 0
    + f.getD 7 0

/-- Spec side: (1 - min(A,T)/T) * 100. -/
def spec_mem_usage (A T : Nat) : ℚ := (1 - ((min A T : Nat) : ℚ) / (T : ℚ)) * 100

/-- What `draw_single_graph` emits for a one-point series with sample value `v`: the frame, a
lone `cairo_move_to` at the right edge (clamped height), the stroke, the marker (unclamped
height) and the title. -/
def single_point_chart (g_x g_y g_w g_h : Int) (title : String) (v minv maxv r g b : ℚ) :
    List Cmd :=
  chart_frame g_x g_y g_w g_h minv maxv
  ++ [Cmd.cairo_move_to ((g_x + g_w : Int) : ℚ)
        ((g_y : ℚ) + (g_h : ℚ) * (1 - max 0 (min 1 ((v - minv) / (maxv - minv))))),
      Cmd.cairo_set_source_rgb r g b,
      Cmd.cairo_set_line_width 2,
      Cmd.cairo_stroke,
      Cmd.cairo_arc ((g_x + g_w : Int) : ℚ)
        ((g_y : ℚ) + (g_h : ℚ) * (1 - (v - minv) / (maxv - minv))) 3 0 2,
      Cmd.cairo_fill]
  ++ chart_title g_x g_y title

/-! ## Concrete inputs -/

/-- A `/proc/stat` first line with total 1000 and idle_all 800. -/
def stat_line_1 : List Char := "cpu  100 0 100 700 100 0 0 0 0 0\n".toList

/-- A later `/proc/stat` first line with total 1100 and idle_all 850. -/
def stat_line_2 : List Char := "cpu  125 0 125 740 110 0 0 0 0 0\n".toList

/-- A `/proc/stat`-style line with only three counters. -/
def stat_line_short : List Char := "cpu  1 2 3\n".toList

/-- A `/proc/meminfo` without a MemAvailable line. -/
def meminfo_no_available : List (List Char) :=
  ["MemTotal:        1000 kB\n".toList, "MemFree:          100 kB\n".toList,
   "Buffers:           50 kB\n".toList, "Cached:            50 kB\n".toList]

/-- A `/proc/meminfo` in the kernel's line order, with a MemAvailable line. -/
def meminfo_available : List (List Char) :=
  ["MemTotal:        1000 kB\n".toList, "MemFree:          100 kB\n".toList,
   "MemAvailable:     250 kB\n".toList, "Buffers:           50 kB\n".toList,
   "Cached:            50 kB\n".toList]

/-- A store with `history_count = 0` whose cell `cpu_history[0]` holds 50. -/
def zero_store_cpu50 : Store :=
  { zero_store with cpu_history := 50 :: List.replicate (HISTORY_SIZE - 1) 0 }

/-- Two hundred and one samples: 200 times (1, 2, 3), then (4, 5, 6). -/
def pushes_201 : List (ℚ × ℚ × ℚ) := List.replicate 200 (1, 2, 3) ++ [(4, 5, 6)]

/-! ## History store: lemmas on one array -/

theorem shift_and_add_full (arr : List ℚ) (v : ℚ) (h : arr.length = 200) :
    shift_and_add 200 arr v = arr.drop 1 ++ [v] := by
  unfold shift_and_add memmove_left HISTORY_SIZE
  simp only [lt_irrefl, if_false]
  apply List.ext_getElem?
  intro i
  simp only [List.getElem?_set, List.getElem?_append, List.length_append, List.length_take,
    List.length_drop, List.getElem?_take, List.getElem?_drop, h, List.length_cons, List.length_nil]
  by_cases h1 : i = 199
  · subst h1; simp
  · by_cases h2 : i < 199
    · have : ¬ (199 = i) := by omega
      simp [h2, this]
    · have h3 : 199 < i := by omega
      have h4 : arr.length ≤ 199 + (i - 199) := by omega
      have h5 : arr.length ≤ 1 + i := by omega
      have : ¬ (199 = i) := by omega
      simp [h2, this, List.getElem?_eq_none h4]
      omega

/-- While fewer than 200 values have been pushed, the n-th pushed value sits in cell n (cell 0
keeps its old content) and the counter equals the number of pushes. -/
theorem push_one_fill (vals : List ℚ) (arr : List ℚ) (h : arr.length = 200)
    (hn : vals.length ≤ 199) :
    (vals.foldl push_one (0, arr)).1 = vals.length ∧
    (vals.foldl push_one (0, arr)).2.length = 200 ∧
    (∀ i, i < vals.length → (vals.foldl push_one (0, arr)).2[i + 1]? = vals[i]?) ∧
    (vals.foldl push_one (0, arr)).2[0]? = arr[0]? := by
  induction vals using List.reverseRecOn with
  | nil => simp [h]
  | append_singleton vs v ih =>
    have hvs : vs.length ≤ 199 := by simp at hn; omega
    have hlt : vs.length < 199 := by simp at hn; omega
    have ih2 := ih hvs
    rw [List.foldl_append]
    simp only [List.foldl_cons, List.foldl_nil]
    generalize List.foldl push_one (0, arr) vs = st at ih2 ⊢
    obtain ⟨c, a⟩ := st
    obtain ⟨h1, h2, h3, h4⟩ := ih2
    simp only at h1 h2 h3 h4
    subst h1
    have hc : vs.length < HISTORY_SIZE := by unfold HISTORY_SIZE; omega
    have hc2 : vs.length + 1 < HISTORY_SIZE := by unfold HISTORY_SIZE; omega
    simp only [push_one, hc, if_true, shift_and_add, hc2, List.length_set, List.length_append,
      List.length_cons, List.length_nil]
    refine ⟨trivial, h2, ?_, ?_⟩
    · intro i hi
      rw [List.getElem?_set]
      by_cases hiv : i = vs.length
      · subst hiv
        simp [h2]
        omega
      · have hi2 : i < vs.length := by omega
        have : ¬ (vs.length + 1 = i + 1) := by omega
        simp only [this, if_false]
        rw [h3 i hi2, List.getElem?_append_left hi2]
    · rw [List.getElem?_set]
      simp [h4]

theorem push_one_at_capacity (vals : List ℚ) (arr : List ℚ) (h : arr.length = 200)
    (hn : vals.length = 200) :
    vals.foldl push_one (0, arr) = (200, vals) := by
  obtain ⟨vs, v, rfl⟩ : ∃ vs v, vals = vs ++ [v] := by
    rcases List.eq_nil_or_concat vals with h0 | ⟨vs, v, h1⟩
    · subst h0; simp at hn
    · exact ⟨vs, v, by simpa using h1⟩
  have hvs : vs.length = 199 := by simp at hn; omega
  have ih2 := push_one_fill vs arr h (by omega)
  rw [List.foldl_append]
  simp only [List.foldl_cons, List.foldl_nil]
  generalize List.foldl push_one (0, arr) vs = st at ih2 ⊢
  obtain ⟨c, a⟩ := st
  obtain ⟨h1, h2, h3, _⟩ := ih2
  simp only at h1 h2 h3
  subst h1
  have hpush : push_one (vs.length, a) v = (200, shift_and_add 200 a v) := by
    simp [push_one, HISTORY_SIZE, hvs]
  rw [hpush, shift_and_add_full a v h2]
  congr 1
  congr 1
  apply List.ext_getElem?
  intro i
  rw [List.getElem?_drop]
  by_cases hi : i < vs.length
  · rw [← h3 i hi]; congr 1; omega
  · rw [List.getElem?_eq_none (by omega), List.getElem?_eq_none (by omega)]

theorem push_one_steady (extra : List ℚ) (cur : List ℚ) (h : cur.length = 200) :
    extra.foldl push_one (200, cur) = (200, (cur ++ extra).drop extra.length) := by
  induction extra generalizing cur with
  | nil => simp
  | cons v vs ih =>
    simp only [List.foldl_cons]
    have : push_one (200, cur) v = (200, cur.drop 1 ++ [v]) := by
      simp only [push_one, HISTORY_SIZE, lt_irrefl, if_false]
      rw [shift_and_add_full cur v h]
    rw [this, ih _ (by simp [h])]
    congr 1
    simp only [List.length_cons, List.append_assoc, List.singleton_append]
    have hd : List.drop 1 cur ++ v :: vs = List.drop 1 (cur ++ v :: vs) := by
      rw [List.drop_append_of_le_length (by omega)]
    rw [hd, List.drop_drop, Nat.add_comm]

theorem push_one_overflow (vals : List ℚ) (arr : List ℚ) (k : Nat) (h : arr.length = 200)
    (hn : vals.length = 200 + k) :
    vals.foldl push_one (0, arr) = (200, vals.drop k) := by
  have hsplit : vals = vals.take 200 ++ vals.drop 200 := (List.take_append_drop 200 vals).symm
  have hk : (vals.drop 200).length = k := by simp [hn]
  have ht : (vals.take 200).length = 200 := by simp [hn]
  conv_lhs => rw [hsplit]
  rw [List.foldl_append, push_one_at_capacity _ arr h ht, push_one_steady _ _ ht, ← hsplit, hk]

theorem run_add_samples_temp (pushes : List (ℚ × ℚ × ℚ)) (s : Store) :
    ((run_add_samples s pushes).history_count, (run_add_samples s pushes).temp_history)
      = (pushes.map (fun p => p.1)).foldl push_one (s.history_count, s.temp_history) := by
  induction pushes generalizing s with
  | nil => rfl
  | cons p ps ih =>
    simp only [run_add_samples, List.foldl_cons, List.map_cons] at ih ⊢
    rw [ih]
    rfl

theorem run_add_samples_cpu (pushes : List (ℚ × ℚ × ℚ)) (s : Store) :
    ((run_add_samples s pushes).history_count, (run_add_samples s pushes).cpu_history)
      = (pushes.map (fun p => p.2.1)).foldl push_one (s.history_count, s.cpu_history) := by
  induction pushes generalizing s with
  | nil => rfl
  | cons p ps ih =>
    simp only [run_add_samples, List.foldl_cons, List.map_cons] at ih ⊢
    rw [ih]
    rfl

theorem run_add_samples_mem (pushes : List (ℚ × ℚ × ℚ)) (s : Store) :
    ((run_add_samples s pushes).history_count, (run_add_samples s pushes).mem_history)
      = (pushes.map (fun p => p.2.2)).foldl push_one (s.history_count, s.mem_history) := by
  induction pushes generalizing s with
  | nil => rfl
  | cons p ps ih =>
    simp only [run_add_samples, List.foldl_cons, List.map_cons] at ih ⊢
    rw [ih]
    rfl

/-! ## History store: claims -/

/-- C1: starting from a store with `history_count = 0` (arrays of the declared length, any
content), after `HISTORY_SIZE + k` calls of `add_samples` each of the three arrays is exactly
the list of the last `HISTORY_SIZE` values pushed for its metric, in push order (cell 0 the
oldest, cell 199 the newest): the pushed sequence with its first `k` values dropped. -/
theorem add_samples_keeps_last_N (s : Store) (pushes : List (ℚ × ℚ × ℚ)) (k : Nat)
    (h0 : s.history_count = 0)
    (ht : s.temp_history.length = HISTORY_SIZE)
    (hc : s.cpu_history.length = HISTORY_SIZE)
    (hm : s.mem_history.length = HISTORY_SIZE)
    (hlen : pushes.length = HISTORY_SIZE + k) :
    (run_add_samples s pushes).temp_history = (pushes.map (fun p => p.1)).drop k ∧
    (run_add_samples s pushes).cpu_history = (pushes.map (fun p => p.2.1)).drop k ∧
    (run_add_samples s pushes).mem_history = (pushes.map (fun p => p.2.2)).drop k ∧
    (run_add_samples s pushes).history_count = HISTORY_SIZE := by
  unfold HISTORY_SIZE at ht hc hm hlen ⊢
  have e1 := run_add_samples_temp pushes s
  have e2 := run_add_samples_cpu pushes s
  have e3 := run_add_samples_mem pushes s
  rw [h0, push_one_overflow _ _ k ht (by simp [hlen])] at e1
  rw [h0, push_one_overflow _ _ k hc (by simp [hlen])] at e2
  rw [h0, push_one_overflow _ _ k hm (by simp [hlen])] at e3
  exact ⟨(Prod.mk.inj e1).2, (Prod.mk.inj e2).2, (Prod.mk.inj e3).2, (Prod.mk.inj e1).1⟩

/-- Witness for C1: 201 pushes into the zero-initialised store. -/
theorem add_samples_keeps_last_N_witness :
    zero_store.history_count = 0 ∧
    pushes_201.length = HISTORY_SIZE + 1 ∧
    (run_add_samples zero_store pushes_201).temp_history
      = (pushes_201.map (fun p => p.1)).drop 1 ∧
    (run_add_samples zero_store pushes_201).cpu_history
      = (pushes_201.map (fun p => p.2.1)).drop 1 ∧
    (run_add_samples zero_store pushes_201).mem_history
      = (pushes_201.map (fun p => p.2.2)).drop 1 ∧
    (run_add_samples zero_store pushes_201).history_count = HISTORY_SIZE :=
  ⟨rfl,
    by simp only [pushes_201, HISTORY_SIZE, List.length_append, List.length_replicate,
      List.length_cons, List.length_nil],
    add_samples_keeps_last_N zero_store pushes_201 1 rfl
      (by simp [zero_store]) (by simp [zero_store]) (by simp [zero_store])
      (by simp only [pushes_201, HISTORY_SIZE, List.length_append, List.length_replicate,
        List.length_cons, List.length_nil])⟩

/-- C2 (the code at the failing input n = 1): one `add_samples 50 10 20` on the
zero-initialised store sets `history_count` to 1 but leaves cell 0 of every array at its old
content 0 and writes the sample into cell 1, so the snapshot of the first `history_count`
cells does not contain the pushed sample. -/
theorem add_samples_first_sample_misplaced :
    (add_samples zero_store 50 10 20).history_count = 1 ∧
    (add_samples zero_store 50 10 20).temp_history.take 1 = [0] ∧
    (add_samples zero_store 50 10 20).cpu_history.take 1 = [0] ∧
    (add_samples zero_store 50 10 20).mem_history.take 1 = [0] ∧
    (add_samples zero_store 50 10 20).temp_history.take 2 = [0, 50] ∧
    (add_samples zero_store 50 10 20).cpu_history.take 2 = [0, 10] ∧
    (add_samples zero_store 50 10 20).mem_history.take 2 = [0, 20] := by
  decide

/-! ## read_cpu_usage -/

theorem wrap_sub (x y : Nat) (hxy : y ≤ x) (hx : x < U64) : (x + U64 - y) % U64 = x - y := by
  have h : x + U64 - y = (x - y) + U64 := by omega
  rw [h, Nat.add_mod_right, Nat.mod_eq_of_lt (by omega)]

/-- C3: from a state with `cpu_prev_ready = FALSE`, for two consecutive lines that each yield
at least 4 counters, every counter of the second at least the same counter of the first
(missing counters count 0) and the eight summed counters of the second below 2^64: the first
call returns 0 and the second returns (dtotal - didle_all) / dtotal * 100, or 0 when
dtotal = 0. -/
theorem read_cpu_usage_two_calls (st : CpuState) (L1 L2 : List Char)
    (hfresh : st.cpu_prev_ready = false)
    (hn1 : 4 ≤ (sscanf_cpu L1).length) (hn2 : 4 ≤ (sscanf_cpu L2).length)
    (hmono : ∀ i, i < 10 → (sscanf_cpu L1).getD i 0 ≤ (sscanf_cpu L2).getD i 0)
    (hov : counters_sum (sscanf_cpu L2) < U64) :
    (read_cpu_usage st (some L1)).1 = 0 ∧
    (read_cpu_usage (read_cpu_usage st (some L1)).2 (some L2)).1
      = spec_cpu_usage (sscanf_cpu L1) (sscanf_cpu L2) := by
  simp only [read_cpu_usage, spec_cpu_usage, spec_total, spec_idle_all, spec_non_idle,
    counters_sum] at hov ⊢
  generalize sscanf_cpu L1 = f1 at hn1 hmono ⊢
  generalize sscanf_cpu L2 = f2 at hn2 hmono hov ⊢
  have m0 := hmono 0 (by omega)
  have m1 := hmono 1 (by omega)
  have m2 := hmono 2 (by omega)
  have m3 := hmono 3 (by omega)
  have m4 := hmono 4 (by omega)
  have m5 := hmono 5 (by omega)
  have m6 := hmono 6 (by omega)
  have m7 := hmono 7 (by omega)
  generalize f1.getD 0 0 = a0 at m0 m1 m2 m3 m4 m5 m6 m7 hov ⊢
  generalize f1.getD 1 0 = a1 at m0 m1 m2 m3 m4 m5 m6 m7 hov ⊢
  generalize f1.getD 2 0 = a2 at m0 m1 m2 m3 m4 m5 m6 m7 hov ⊢
  generalize f1.getD 3 0 = a3 at m0 m1 m2 m3 m4 m5 m6 m7 hov ⊢
  generalize f1.getD 4 0 = a4 at m0 m1 m2 m3 m4 m5 m6 m7 hov ⊢
  generalize f1.getD 5 0 = a5 at m0 m1 m2 m3 m4 m5 m6 m7 hov ⊢
  generalize f1.getD 6 0 = a6 at m0 m1 m2 m3 m4 m5 m6 m7 hov ⊢
  generalize f1.getD 7 0 = a7 at m0 m1 m2 m3 m4 m5 m6 m7 hov ⊢
  generalize f2.getD 0 0 = b0 at m0 m1 m2 m3 m4 m5 m6 m7 hov ⊢
  generalize f2.getD 1 0 = b1 at m0 m1 m2 m3 m4 m5 m6 m7 hov ⊢
  generalize f2.getD 2 0 = b2 at m0 m1 m2 m3 m4 m5 m6 m7 hov ⊢
  generalize f2.getD 3 0 = b3 at m0 m1 m2 m3 m4 m5 m6 m7 hov ⊢
  generalize f2.getD 4 0 = b4 at m0 m1 m2 m3 m4 m5 m6 m7 hov ⊢
  generalize f2.getD 5 0 = b5 at m0 m1 m2 m3 m4 m5 m6 m7 hov ⊢
  generalize f2.getD 6 0 = b6 at m0 m1 m2 m3 m4 m5 m6 m7 hov ⊢
  generalize f2.getD 7 0 = b7 at m0 m1 m2 m3 m4 m5 m6 m7 hov ⊢
  have e1 : ¬ (f1.length < 4) := by omega
  have e2 : ¬ (f2.length < 4) := by omega
  simp only [e1, e2, if_false, hfresh, Bool.false_eq_true, if_true]
  refine ⟨trivial, ?_⟩
  rw [Nat.mod_eq_of_lt (show a3 + a4 < U64 by omega),
    Nat.mod_eq_of_lt (show a0 + a1 + a2 + a5 + a6 + a7 < U64 by omega),
    Nat.mod_eq_of_lt (show a3 + a4 + (a0 + a1 + a2 + a5 + a6 + a7) < U64 by omega),
    Nat.mod_eq_of_lt (show b3 + b4 < U64 by omega),
    Nat.mod_eq_of_lt (show b0 + b1 + b2 + b5 + b6 + b7 < U64 by omega),
    Nat.mod_eq_of_lt (show b3 + b4 + (b0 + b1 + b2 + b5 + b6 + b7) < U64 by omega),
    wrap_sub (b3 + b4 + (b0 + b1 + b2 + b5 + b6 + b7))
      (a3 + a4 + (a0 + a1 + a2 + a5 + a6 + a7)) (by omega) (by omega),
    wrap_sub (b3 + b4) (a3 + a4) (by omega) (by omega),
    wrap_sub _ _ (by omega) (by omega)]
  have hle : b3 + b4 - (a3 + a4) ≤ b3 + b4 + (b0 + b1 + b2 + b5 + b6 + b7)
      - (a3 + a4 + (a0 + a1 + a2 + a5 + a6 + a7)) := by omega
  have hle1 : a3 + a4 ≤ b3 + b4 := by omega
  have hle2 : a3 + a4 + (a0 + a1 + a2 + a5 + a6 + a7)
      ≤ b3 + b4 + (b0 + b1 + b2 + b5 + b6 + b7) := by omega
  by_cases hd : b3 + b4 + (b0 + b1 + b2 + b5 + b6 + b7)
      - (a3 + a4 + (a0 + a1 + a2 + a5 + a6 + a7)) = 0
  · have hq : ((b3 : ℚ) + b4 + ((b0 : ℚ) + b1 + b2 + b5 + b6 + b7)
        - ((a3 : ℚ) + a4 + ((a0 : ℚ) + a1 + a2 + a5 + a6 + a7))) = 0 := by
      have : b3 + b4 + (b0 + b1 + b2 + b5 + b6 + b7)
          = a3 + a4 + (a0 + a1 + a2 + a5 + a6 + a7) := by omega
      have hc := congrArg (Nat.cast : Nat → ℚ) this
      push_cast at hc
      linarith
    simp [hd, hq]
  · have hpos : b3 + b4 + (b0 + b1 + b2 + b5 + b6 + b7)
        - (a3 + a4 + (a0 + a1 + a2 + a5 + a6 + a7)) > 0 := by omega
    have hq : ((b3 : ℚ) + b4 + ((b0 : ℚ) + b1 + b2 + b5 + b6 + b7)
        - ((a3 : ℚ) + a4 + ((a0 : ℚ) + a1 + a2 + a5 + a6 + a7))) ≠ 0 := by
      intro hz
      apply hd
      have : ((b3 + b4 + (b0 + b1 + b2 + b5 + b6 + b7) : Nat) : ℚ)
          = ((a3 + a4 + (a0 + a1 + a2 + a5 + a6 + a7) : Nat) : ℚ) := by
        push_cast; linarith
      have := Nat.cast_injective this
      omega
    simp only [hpos, if_true, hq, if_false]
    rw [Nat.cast_sub hle, Nat.cast_sub hle1, Nat.cast_sub hle2]
    push_cast
    field_simp

theorem sscanf_cpu_stat_line_1 :
    sscanf_cpu stat_line_1 = [100, 0, 100, 700, 100, 0, 0, 0, 0, 0] := by
  decide

theorem sscanf_cpu_stat_line_2 :
    sscanf_cpu stat_line_2 = [125, 0, 125, 740, 110, 0, 0, 0, 0, 0] := by
  decide

/-- Witness for C3: prior total 1000 and idle_all 800, current total 1100 and idle_all 850
give usage 50. -/
theorem read_cpu_usage_two_calls_witness :
    4 ≤ (sscanf_cpu stat_line_1).length ∧ 4 ≤ (sscanf_cpu stat_line_2).length ∧
    spec_total (sscanf_cpu stat_line_1) = 1000 ∧ spec_idle_all (sscanf_cpu stat_line_1) = 800 ∧
    spec_total (sscanf_cpu stat_line_2) = 1100 ∧ spec_idle_all (sscanf_cpu stat_line_2) = 850 ∧
    (read_cpu_usage ⟨0, 0, false⟩ (some stat_line_1)).1 = 0 ∧
    (read_cpu_usage (read_cpu_usage ⟨0, 0, false⟩ (some stat_line_1)).2 (some stat_line_2)).1
      = 50 := by
  have h := read_cpu_usage_two_calls ⟨0, 0, false⟩ stat_line_1 stat_line_2 rfl
    (by decide) (by decide) (by decide) (by decide)
  refine ⟨by decide, by decide, ?_, ?_, ?_, ?_, h.1, ?_⟩
  · rw [sscanf_cpu_stat_line_1]; norm_num [spec_total, spec_idle_all, spec_non_idle]
  · rw [sscanf_cpu_stat_line_1]; norm_num [spec_idle_all]
  · rw [sscanf_cpu_stat_line_2]; norm_num [spec_total, spec_idle_all, spec_non_idle]
  · rw [sscanf_cpu_stat_line_2]; norm_num [spec_idle_all]
  · rw [h.2, sscanf_cpu_stat_line_1, sscanf_cpu_stat_line_2]
    norm_num [spec_cpu_usage, spec_total, spec_idle_all, spec_non_idle]

/-- C6 as stated fails: when `/proc/stat` cannot be read, and when the line yields fewer than
4 counters, the call returns before the statics are written; `cpu_prev_ready` stays FALSE and
`prev_total`, `prev_idle` keep their old values. -/
theorem read_cpu_usage_failed_read_keeps_state :
    (read_cpu_usage ⟨0, 0, false⟩ none).2.cpu_prev_ready = false ∧
    (sscanf_cpu stat_line_short).length = 3 ∧
    (read_cpu_usage ⟨0, 0, false⟩ (some stat_line_short)).2.cpu_prev_ready = false ∧
    (read_cpu_usage ⟨1000, 800, true⟩ (some stat_line_short)).2 = ⟨1000, 800, true⟩ := by
  decide

/-- C6 amended: a call that reads at least 4 counters sets `cpu_prev_ready` and stores in
`prev_total`, `prev_idle` the total and idle_all of this call (counters not read taken as 0,
sums modulo 2^64); a call whose source is unreadable or yields fewer than 4 counters returns 0
and leaves the three statics unchanged. -/
theorem read_cpu_usage_state (st : CpuState) (src : Option (List Char)) :
    (∀ line, src = some line → 4 ≤ (sscanf_cpu line).length →
      (read_cpu_usage st src).2 =
        { prev_total := counters_sum (sscanf_cpu line) % U64
          prev_idle := ((sscanf_cpu line).getD 3 0 + (sscanf_cpu line).getD 4 0) % U64
          cpu_prev_ready := true }) ∧
    ((src = none ∨ ∃ line, src = some line ∧ (sscanf_cpu line).length < 4) →
      read_cpu_usage st src = (0, st)) := by
  constructor
  · intro line hsrc hlen
    subst hsrc
    have e1 : ¬ ((sscanf_cpu line).length < 4) := by omega
    simp only [read_cpu_usage, e1, if_false, counters_sum, CpuState.mk.injEq, and_true]
    generalize (sscanf_cpu line).getD 0 0 = a0
    generalize (sscanf_cpu line).getD 1 0 = a1
    generalize (sscanf_cpu line).getD 2 0 = a2
    generalize (sscanf_cpu line).getD 3 0 = a3
    generalize (sscanf_cpu line).getD 4 0 = a4
    generalize (sscanf_cpu line).getD 5 0 = a5
    generalize (sscanf_cpu line).getD 6 0 = a6
    generalize (sscanf_cpu line).getD 7 0 = a7
    rw [← Nat.add_mod]
    congr 1
    omega
  · rintro (h | ⟨line, h, hlen⟩)
    · subst h; rfl
    · subst h; simp only [read_cpu_usage, hlen, if_true]

/-- Witness for C6 amended: a full line updates the statics, a short line and an unreadable
source leave them alone. -/
theorem read_cpu_usage_state_witness :
    4 ≤ (sscanf_cpu stat_line_1).length ∧
    (read_cpu_usage ⟨7, 5, false⟩ (some stat_line_1)).2 =
      { prev_total := counters_sum (sscanf_cpu stat_line_1) % U64
        prev_idle := ((sscanf_cpu stat_line_1).getD 3 0 + (sscanf_cpu stat_line_1).getD 4 0) % U64
        cpu_prev_ready := true } ∧
    (sscanf_cpu stat_line_short).length < 4 ∧
    read_cpu_usage ⟨7, 5, false⟩ (some stat_line_short) = (0, ⟨7, 5, false⟩) :=
  ⟨by decide,
    (read_cpu_usage_state ⟨7, 5, false⟩ (some stat_line_1)).1 stat_line_1 rfl (by decide),
    by decide,
    (read_cpu_usage_state ⟨7, 5, false⟩ (some stat_line_short)).2
      (Or.inr ⟨stat_line_short, rfl, by decide⟩)⟩

/-! ## read_mem_usage_percent -/

theorem match_literal_MemTotal_MemAvailable (line : List Char) (r : List Char)
    (h : match_literal KEY_MemAvailable line = some r) :
    match_literal KEY_MemTotal line = none := by
  rcases line with _ | ⟨c1, _ | ⟨c2, _ | ⟨c3, _ | ⟨c4, t⟩⟩⟩⟩ <;>
    simp only [KEY_MemAvailable, KEY_MemTotal, match_literal] at h ⊢
  all_goals (try split_ifs at h ⊢)
  all_goals first
    | rfl
    | exact absurd h (by simp)
    | (rename_i h4 h5; exact absurd (h5.trans h4.symm) (by decide))

theorem sscanf_kb_MemAvailable_not_MemTotal (line : List Char) (v : Nat)
    (h : sscanf_kb KEY_MemAvailable line = some v) :
    sscanf_kb KEY_MemTotal line = none := by
  unfold sscanf_kb at h ⊢
  cases hm : match_literal KEY_MemAvailable line with
  | none => rw [hm] at h; simp at h
  | some r => rw [match_literal_MemTotal_MemAvailable line r hm]

theorem mem_line_total (st : Nat × Nat) (line : List Char) :
    (mem_line st line).1 = (sscanf_kb KEY_MemTotal line).getD st.1 := by
  unfold mem_line
  cases sscanf_kb KEY_MemTotal line with
  | some v => rfl
  | none =>
    cases sscanf_kb KEY_MemAvailable line with
    | some v => rfl
    | none => rfl

theorem mem_line_avail_set (st : Nat × Nat) (line : List Char) (v : Nat)
    (h : sscanf_kb KEY_MemAvailable line = some v) :
    (mem_line st line).2 = v := by
  unfold mem_line
  rw [sscanf_kb_MemAvailable_not_MemTotal line v h, h]

theorem fallback_add_nonzero (a : Nat) (key line : List Char) (h : a ≠ 0) :
    fallback_add a key line = a := by
  simp [fallback_add, h]

theorem mem_line_avail_keep (st : Nat × Nat) (line : List Char) (hpos : st.2 ≠ 0)
    (h : sscanf_kb KEY_MemAvailable line = none) :
    (mem_line st line).2 = st.2 := by
  unfold mem_line
  cases sscanf_kb KEY_MemTotal line with
  | some v => rfl
  | none =>
    simp only [h]
    rw [fallback_add_nonzero _ _ _ hpos, fallback_add_nonzero _ _ _ hpos,
      fallback_add_nonzero _ _ _ hpos]

theorem foldl_mem_line_avail_keep (ls : List (List Char)) (st : Nat × Nat) (hpos : st.2 ≠ 0)
    (h : ∀ l ∈ ls, sscanf_kb KEY_MemAvailable l = none) :
    (ls.foldl mem_line st).2 = st.2 := by
  induction ls generalizing st with
  | nil => rfl
  | cons l ls ih =>
    have hl := mem_line_avail_keep st l hpos (h l (List.mem_cons_self _ _))
    rw [List.foldl_cons, ih (mem_line st l) (by rw [hl]; exact hpos)
      (fun l2 h2 => h l2 (List.mem_cons_of_mem _ h2)), hl]

theorem foldl_mem_line_total_keep (ls : List (List Char)) (st : Nat × Nat)
    (h : ∀ l ∈ ls, sscanf_kb KEY_MemTotal l = none) :
    (ls.foldl mem_line st).1 = st.1 := by
  induction ls generalizing st with
  | nil => rfl
  | cons l ls ih =>
    rw [List.foldl_cons, ih (mem_line st l) (fun l2 h2 => h l2 (List.mem_cons_of_mem _ h2)),
      mem_line_total, h l (List.mem_cons_self _ _)]
    rfl

/-- C4 (the code at the failing input): with MemTotal 1000, no MemAvailable line, MemFree 100,
Buffers 50 and Cached 50, the loop ends with `mem_avail = 100` (MemFree alone: once it is
added, the guard `mem_avail == 0` keeps Buffers and Cached out) and the function returns 90,
not the 80 that available = 100 + 50 + 50 gives. -/
theorem read_mem_usage_percent_fallback_stops_at_MemFree :
    (∀ l ∈ meminfo_no_available, sscanf_kb KEY_MemAvailable l = none) ∧
    meminfo_no_available.foldl mem_line (0, 0) = (1000, 100) ∧
    read_mem_usage_percent (some meminfo_no_available) = 90 ∧
    read_mem_usage_percent (some meminfo_no_available) ≠ (1 - (100 + 50 + 50) / 1000) * 100 := by
  have h : meminfo_no_available.foldl mem_line (0, 0) = (1000, 100) := by decide
  have hv : read_mem_usage_percent (some meminfo_no_available) = 90 := by
    simp only [read_mem_usage_percent, h]
    norm_num
  refine ⟨by decide, h, hv, ?_⟩
  rw [hv]
  norm_num

/-- C5: when the last line that parses as MemAvailable carries A > 0, and T is the value of
the last line that parses as MemTotal (T = 0 when no line does), in any line order and with any
other lines around, `read_mem_usage_percent` returns 0 for T = 0 and otherwise
(1 - min(A,T)/T) * 100; the result lies in [0, 100]. -/
theorem read_mem_usage_percent_available (lines pa sa : List (List Char)) (la : List Char)
    (A T : Nat)
    (hA : lines = pa ++ la :: sa)
    (hla : sscanf_kb KEY_MemAvailable la = some A) (hApos : 0 < A)
    (hsa : ∀ l ∈ sa, sscanf_kb KEY_MemAvailable l = none)
    (hT : (T = 0 ∧ ∀ l ∈ lines, sscanf_kb KEY_MemTotal l = none) ∨
      (∃ pt lt st, lines = pt ++ lt :: st ∧ sscanf_kb KEY_MemTotal lt = some T ∧
        ∀ l ∈ st, sscanf_kb KEY_MemTotal l = none)) :
    read_mem_usage_percent (some lines)
      = (if T = 0 then 0 else spec_mem_usage A T) ∧
    0 ≤ read_mem_usage_percent (some lines) ∧ read_mem_usage_percent (some lines) ≤ 100 := by
  have havail : (lines.foldl mem_line (0, 0)).2 = A := by
    rw [hA, List.foldl_append, List.foldl_cons]
    have h1 := mem_line_avail_set (List.foldl mem_line (0, 0) pa) la A hla
    rw [foldl_mem_line_avail_keep sa _ (by rw [h1]; omega) hsa, h1]
  have htotal : (lines.foldl mem_line (0, 0)).1 = T := by
    rcases hT with ⟨hT0, hnone⟩ | ⟨pt, lt, st, hl, hlt, hst⟩
    · rw [foldl_mem_line_total_keep lines _ hnone, hT0]
    · rw [hl, List.foldl_append, List.foldl_cons, foldl_mem_line_total_keep st _ hst,
        mem_line_total, hlt]
      rfl
  have hval : read_mem_usage_percent (some lines)
      = (if T = 0 then 0 else spec_mem_usage A T) := by
    simp only [read_mem_usage_percent, havail, htotal, spec_mem_usage]
    by_cases hT0 : T = 0
    · simp [hT0]
    · have hTpos : (0 : ℚ) < (T : ℚ) := by exact_mod_cast Nat.pos_of_ne_zero hT0
      have hmin : (if A > T then T else A) = min A T := by
        by_cases hc : A > T
        · simp [hc, Nat.min_eq_right (le_of_lt hc)]
        · simp [hc, Nat.min_eq_left (not_lt.mp hc)]
      have hle : ((min A T : Nat) : ℚ) ≤ (T : ℚ) := by exact_mod_cast Nat.min_le_right A T
      have hnn : (0 : ℚ) ≤ ((min A T : Nat) : ℚ) := by exact_mod_cast Nat.zero_le _
      have hfrac1 : ((min A T : Nat) : ℚ) / (T : ℚ) ≤ 1 := (div_le_one hTpos).mpr hle
      have hfrac0 : 0 ≤ ((min A T : Nat) : ℚ) / (T : ℚ) := div_nonneg hnn (le_of_lt hTpos)
      simp only [hT0, if_false, hmin]
      have h0 : ¬ ((1 - ((min A T : Nat) : ℚ) / (T : ℚ)) * 100 < 0) := by
        apply not_lt.mpr; nlinarith
      simp only [h0, if_false]
      have h100 : ¬ ((1 - ((min A T : Nat) : ℚ) / (T : ℚ)) * 100 > 100) := by
        apply not_lt.mpr; nlinarith
      simp only [h100, if_false]
  refine ⟨hval, ?_, ?_⟩
  · rw [hval]
    by_cases hT0 : T = 0
    · simp [hT0]
    · have hTpos : (0 : ℚ) < (T : ℚ) := by exact_mod_cast Nat.pos_of_ne_zero hT0
      have hle : ((min A T : Nat) : ℚ) ≤ (T : ℚ) := by exact_mod_cast Nat.min_le_right A T
      have hfrac1 : ((min A T : Nat) : ℚ) / (T : ℚ) ≤ 1 := (div_le_one hTpos).mpr hle
      simp only [hT0, if_false, spec_mem_usage]
      nlinarith
  · rw [hval]
    by_cases hT0 : T = 0
    · simp [hT0]
    · have hTpos : (0 : ℚ) < (T : ℚ) := by exact_mod_cast Nat.pos_of_ne_zero hT0
      have hnn : (0 : ℚ) ≤ ((min A T : Nat) : ℚ) := by exact_mod_cast Nat.zero_le _
      have hfrac0 : 0 ≤ ((min A T : Nat) : ℚ) / (T : ℚ) := div_nonneg hnn (le_of_lt hTpos)
      simp only [hT0, if_false, spec_mem_usage]
      nlinarith

/-- Witness for C5: MemTotal 1000 and MemAvailable 250, in the kernel's line order with
MemFree, Buffers and Cached around, give 75. -/
theorem read_mem_usage_percent_available_witness :
    meminfo_available = meminfo_available.take 2 ++
      "MemAvailable:     250 kB\n".toList :: meminfo_available.drop 3 ∧
    sscanf_kb KEY_MemAvailable "MemAvailable:     250 kB\n".toList = some 250 ∧
    meminfo_available = [] ++ "MemTotal:        1000 kB\n".toList :: meminfo_available.drop 1 ∧
    sscanf_kb KEY_MemTotal "MemTotal:        1000 kB\n".toList = some 1000 ∧
    read_mem_usage_percent (some meminfo_available) = 75 := by
  have h := read_mem_usage_percent_available meminfo_available (meminfo_available.take 2)
    (meminfo_available.drop 3) "MemAvailable:     250 kB\n".toList 250 1000
    (by decide) (by decide) (by decide) (by decide)
    (Or.inr ⟨[], "MemTotal:        1000 kB\n".toList, meminfo_available.drop 1,
      by decide, by decide, by decide⟩)
  refine ⟨by decide, by decide, by decide, by decide, ?_⟩
  rw [h.1]
  norm_num [spec_mem_usage]

/-! ## parse_temp_from_string -/

theorem digits_to_nat_fold (ds : List Char) (a : Nat) :
    ds.foldl (fun acc c => acc * 10 + digit_value c) a
      = a * 10 ^ ds.length + digits_to_nat ds := by
  induction ds generalizing a with
  | nil => simp [digits_to_nat]
  | cons d ds ih =>
    simp only [List.foldl_cons, List.length_cons, digits_to_nat]
    rw [ih, ih (0 * 10 + digit_value d)]
    ring

theorem digits_to_nat_cons (c : Char) (ds : List Char) :
    digits_to_nat (c :: ds) = digit_value c * 10 ^ ds.length + digits_to_nat ds := by
  have h := digits_to_nat_fold ds (0 * 10 + digit_value c)
  simp only [Nat.zero_mul, Nat.zero_add] at h
  show List.foldl (fun acc c => acc * 10 + digit_value c) (0 * 10 + digit_value c) ds = _
  simpa using h

/-- The loop after the decimal point: it consumes the digit run and stops. -/
theorem temp_scan_frac (r : List Char) (st : TempScan) (hf : st.found_digit = true)
    (hi : st.in_frac = true) :
    temp_scan_loop r st =
      { st with frac := st.frac * 10 ^ (r.takeWhile isdigit).length
                  + (digits_to_nat (r.takeWhile isdigit) : ℚ),
                scale := st.scale * 10 ^ (r.takeWhile isdigit).length } := by
  induction r generalizing st with
  | nil => simp [temp_scan_loop, digits_to_nat]
  | cons c cs ih =>
    obtain ⟨fd, v, fr, sc, inf⟩ := st
    simp only at hf hi
    subst hf hi
    by_cases hc : isdigit c = true
    · simp only [temp_scan_loop, hc, if_true, Bool.not_true, Bool.false_eq_true, if_false,
        List.takeWhile_cons_of_pos, List.length_cons]
      rw [ih _ rfl rfl, digits_to_nat_cons]
      congr 1
      · push_cast; ring
      · ring
    · simp only [Bool.not_eq_true] at hc
      simp [temp_scan_loop, hc, digits_to_nat]

/-- The loop once a digit has been seen and before any decimal point. -/
theorem temp_scan_int (t : List Char) (v : ℚ) :
    temp_scan_loop t { found_digit := true, val := v, frac := 0, scale := 1, in_frac := false } =
      match t.dropWhile isdigit with
      | '.' :: r =>
        { found_digit := true
          val := v * 10 ^ (t.takeWhile isdigit).length + (digits_to_nat (t.takeWhile isdigit) : ℚ)
          frac := (digits_to_nat (r.takeWhile isdigit) : ℚ)
          scale := 10 ^ (r.takeWhile isdigit).length
          in_frac := true }
      | _ =>
        { found_digit := true
          val := v * 10 ^ (t.takeWhile isdigit).length + (digits_to_nat (t.takeWhile isdigit) : ℚ)
          frac := 0, scale := 1, in_frac := false } := by
  induction t generalizing v with
  | nil => simp [temp_scan_loop, digits_to_nat]
  | cons c cs ih =>
    by_cases hc : isdigit c = true
    · simp only [temp_scan_loop, hc, if_true, Bool.not_false, List.dropWhile_cons_of_pos,
        List.takeWhile_cons_of_pos, List.length_cons]
      rw [ih]
      have e1 : (v * 10 + (digit_value c : ℚ)) * 10 ^ (List.takeWhile isdigit cs).length
            + (digits_to_nat (List.takeWhile isdigit cs) : ℚ)
          = v * 10 ^ ((List.takeWhile isdigit cs).length + 1)
            + (digits_to_nat (c :: List.takeWhile isdigit cs) : ℚ) := by
        rw [digits_to_nat_cons]
        push_cast; ring
      rw [e1]
    · simp only [Bool.not_eq_true] at hc
      have hdw : List.dropWhile isdigit (c :: cs) = c :: cs := by
        simp [List.dropWhile_cons, hc]
      have htw : List.takeWhile isdigit (c :: cs) = [] := by
        simp [List.takeWhile_cons, hc]
      rw [hdw, htw]
      by_cases hdot : c = '.'
      · subst hdot
        simp only [temp_scan_loop, hc, Bool.false_eq_true, if_false, Bool.and_self,
          Bool.not_false, decide_True, if_true]
        rw [temp_scan_frac _ _ rfl rfl]
        simp [digits_to_nat]
      · have : ∀ r, c :: cs ≠ '.' :: r := by
          intro r h; exact hdot (List.cons.inj h).1
        simp [temp_scan_loop, hc, hdot, digits_to_nat]

/-- Before any digit the loop skips every character. -/
theorem temp_scan_skip (s : List Char) :
    temp_scan_loop s { found_digit := false, val := 0, frac := 0, scale := 1, in_frac := false }
      = temp_scan_loop (s.dropWhile (fun c => !isdigit c))
          { found_digit := false, val := 0, frac := 0, scale := 1, in_frac := false } := by
  induction s with
  | nil => rfl
  | cons c cs ih =>
    by_cases hc : isdigit c = true
    · simp [List.dropWhile_cons, hc]
    · simp only [Bool.not_eq_true] at hc
      simp only [List.dropWhile_cons, hc, Bool.not_false, if_true]
      rw [← ih]
      simp [temp_scan_loop, hc]

theorem parse_temp_from_string_eq (s : List Char) (out : ℚ) :
    parse_temp_from_string s out =
      match first_numeral s with
      | none => (0, out)
      | some DF => (1, numeral_value DF) := by
  unfold parse_temp_from_string first_numeral
  rw [temp_scan_skip]
  generalize ht : s.dropWhile (fun c => !isdigit c) = t
  cases t with
  | nil => simp [temp_scan_loop]
  | cons c cs =>
    have hc : isdigit c = true := by
      have h := List.head_dropWhile_not (fun c => !isdigit c) s
      simp only [ht, List.head?_cons] at h
      simpa using h
    have hstart : temp_scan_loop (c :: cs)
          { found_digit := false, val := 0, frac := 0, scale := 1, in_frac := false }
        = temp_scan_loop (c :: cs)
          { found_digit := true, val := 0, frac := 0, scale := 1, in_frac := false } := by
      simp [temp_scan_loop, hc]
    simp only [hstart, temp_scan_int, reduceCtorEq, if_false]
    cases hr : List.dropWhile isdigit (c :: cs) with
    | nil => simp [numeral_value, digits_to_nat]
    | cons d r =>
      by_cases hd : d = '.'
      · subst hd
        simp only [Bool.not_true, Bool.false_eq_true, if_false, numeral_value, zero_mul, zero_add]
        by_cases hF : (List.takeWhile isdigit r).length = 0
        · have hnil : List.takeWhile isdigit r = [] := List.length_eq_zero.mp hF
          simp [hnil, digits_to_nat]
        · have hgt : (1 : ℚ) < 10 ^ (List.takeWhile isdigit r).length :=
            one_lt_pow₀ (by norm_num) hF
          simp [hgt]
      · have : ∀ r2, d :: r ≠ '.' :: r2 := by
          intro r2 h; exact hd (List.cons.inj h).1
        simp [numeral_value, digits_to_nat, hd]

theorem first_numeral_eq_none (s : List Char) :
    first_numeral s = none ↔ ∀ c ∈ s, isdigit c = false := by
  unfold first_numeral
  simp only [ite_eq_left_iff, reduceCtorEq, imp_false, not_not, List.dropWhile_eq_nil_iff,
    Bool.not_eq_true']

/-- C7: `parse_temp_from_string` returns 0 and leaves the output untouched exactly when `s`
has no decimal digit; otherwise it returns 1 and the output is the first decimal numeral of
`s`, D + F / 10^|F|. The string `temp=52.3'C` gives 52.3 and `no numbers here` fails. -/
theorem parse_temp_from_string_first_numeral (s : List Char) (out : ℚ) :
    (parse_temp_from_string s out =
      match first_numeral s with
      | none => (0, out)
      | some DF => (1, numeral_value DF)) ∧
    (first_numeral s = none ↔ ∀ c ∈ s, isdigit c = false) ∧
    ((parse_temp_from_string s out).1 = 0 ↔ ∀ c ∈ s, isdigit c = false) ∧
    parse_temp_from_string "temp=52.3'C".toList out = (1, 523 / 10) ∧
    parse_temp_from_string "no numbers here".toList out = (0, out) := by
  refine ⟨parse_temp_from_string_eq s out, first_numeral_eq_none s, ?_, ?_, ?_⟩
  · rw [parse_temp_from_string_eq, ← first_numeral_eq_none]
    cases first_numeral s with
    | none => simp
    | some DF => simp
  · rw [parse_temp_from_string_eq]
    have h : first_numeral "temp=52.3'C".toList = some (['5', '2'], ['3']) := by decide
    have h1 : digits_to_nat ['5', '2'] = 52 := by decide
    have h2 : digits_to_nat ['3'] = 3 := by decide
    simp only [h, numeral_value, h1, h2]
    norm_num
  · rw [parse_temp_from_string_eq]
    have h : first_numeral "no numbers here".toList = none := by decide
    simp only [h]

/-! ## Renderer -/

theorem normalized_eq_clamp (v minv maxv : ℚ) :
    normalized v minv maxv = max 0 (min 1 ((v - minv) / (maxv - minv))) := by
  unfold normalized
  simp only
  by_cases h0 : (v - minv) / (maxv - minv) < 0
  · have h1 : ¬ ((0 : ℚ) > 1) := by norm_num
    rw [if_pos h0, if_neg h1, min_eq_right (by linarith), max_eq_left (le_of_lt h0)]
  · rw [if_neg h0]
    by_cases h1 : (v - minv) / (maxv - minv) > 1
    · rw [if_pos h1, min_eq_left (le_of_lt h1), max_eq_right (by norm_num)]
    · rw [if_neg h1, min_eq_right (not_lt.mp h1), max_eq_right (not_lt.mp h0)]

theorem normalized_bounds (v minv maxv : ℚ) :
    0 ≤ normalized v minv maxv ∧ normalized v minv maxv ≤ 1 := by
  rw [normalized_eq_clamp]
  exact ⟨le_max_left _ _, max_le (by norm_num) (min_le_left _ _)⟩

theorem polyline_getElem_some (g_x g_y g_w g_h : Int) (history : List ℚ) (pts : Nat)
    (minv maxv : ℚ) (i : Nat) (hi : i < pts) :
    (polyline g_x g_y g_w g_h history pts minv maxv)[i]? =
      some (if i = 0 then
          Cmd.cairo_move_to (vertex_x g_x g_w pts i)
            (vertex_y g_y g_h (history.getD i 0) minv maxv)
        else
          Cmd.cairo_line_to (vertex_x g_x g_w pts i)
            (vertex_y g_y g_h (history.getD i 0) minv maxv)) := by
  unfold polyline
  rw [List.getElem?_map, List.getElem?_range hi]
  rfl

theorem chart_frame_length (g_x g_y g_w g_h : Int) (minv maxv : ℚ) :
    (chart_frame g_x g_y g_w g_h minv maxv).length = 25 := by
  simp [chart_frame, grid_line]

theorem polyline_length (g_x g_y g_w g_h : Int) (history : List ℚ) (pts : Nat)
    (minv maxv : ℚ) :
    (polyline g_x g_y g_w g_h history pts minv maxv).length = pts := by
  simp [polyline]

/-- The calls of `draw_single_graph` at positions 25 .. 25 + points - 1 (right after the 25
calls of the frame) are the polyline calls of the loop, in loop order. -/
theorem draw_single_graph_getElem_vertex (g_x g_y g_w g_h : Int) (title : String)
    (history : List ℚ) (points : Nat) (minv maxv r g b : ℚ) (i : Nat) (hi : i < points) :
    (draw_single_graph g_x g_y g_w g_h title history points minv maxv r g b)[25 + i]? =
      (polyline g_x g_y g_w g_h history points minv maxv)[i]? := by
  have hp : points > 0 := by omega
  unfold draw_single_graph
  rw [if_pos hp]
  have hlen := chart_frame_length g_x g_y g_w g_h minv maxv
  have hpl := polyline_length g_x g_y g_w g_h history points minv maxv
  rw [List.getElem?_append_left (by simp only [List.length_append, hlen, hpl]; omega),
    List.getElem?_append_right (by rw [hlen]; omega), hlen,
    List.getElem?_append_left (by rw [hpl]; omega)]
  congr 1
  omega

/-- C8: for a range with minv < maxv and a chart of height g_h >= 0, and every i < points, the
cairo call number 25 + i that `draw_single_graph` makes (the i-th call of its polyline loop, the
frame taking calls 0 .. 24) is the vertex of sample v = history[i]: a move for i = 0, a line
otherwise, at y = g_y + g_h * (1 - normalized) with
normalized = clamp((v - minv)/(maxv - minv), 0, 1); normalized lies in [0,1], is 0 for
v <= minv and 1 for v >= maxv, and y lies in [g_y, g_y + g_h]. In numbers: 30 on [30, 85]
gives 0, 85 gives 1, 120 on [0, 100] gives 1. -/
theorem draw_single_graph_vertex_clamped (g_x g_y g_w g_h : Int) (title : String)
    (history : List ℚ) (points i : Nat) (minv maxv r g b : ℚ)
    (hrange : minv < maxv) (hh : 0 ≤ g_h) (hi : i < points) :
    (draw_single_graph g_x g_y g_w g_h title history points minv maxv r g b)[25 + i]? =
      some (if i = 0 then
          Cmd.cairo_move_to (vertex_x g_x g_w points i)
            ((g_y : ℚ) + (g_h : ℚ) * (1 - normalized (history.getD i 0) minv maxv))
        else
          Cmd.cairo_line_to (vertex_x g_x g_w points i)
            ((g_y : ℚ) + (g_h : ℚ) * (1 - normalized (history.getD i 0) minv maxv))) ∧
    normalized (history.getD i 0) minv maxv
      = max 0 (min 1 ((history.getD i 0 - minv) / (maxv - minv))) ∧
    0 ≤ normalized (history.getD i 0) minv maxv ∧
    normalized (history.getD i 0) minv maxv ≤ 1 ∧
    (history.getD i 0 ≤ minv → normalized (history.getD i 0) minv maxv = 0) ∧
    (maxv ≤ history.getD i 0 → normalized (history.getD i 0) minv maxv = 1) ∧
    (g_y : ℚ) ≤ (g_y : ℚ) + (g_h : ℚ) * (1 - normalized (history.getD i 0) minv maxv) ∧
    (g_y : ℚ) + (g_h : ℚ) * (1 - normalized (history.getD i 0) minv maxv)
      ≤ (g_y : ℚ) + (g_h : ℚ) ∧
    normalized 30 30 85 = 0 ∧ normalized 85 30 85 = 1 ∧ normalized 120 0 100 = 1 := by
  have hy : vertex_y g_y g_h (history.getD i 0) minv maxv
      = (g_y : ℚ) + (g_h : ℚ) * (1 - normalized (history.getD i 0) minv maxv) := by
    unfold vertex_y; ring
  have hfirst := draw_single_graph_getElem_vertex g_x g_y g_w g_h title history points minv maxv
    r g b i hi
  rw [polyline_getElem_some g_x g_y g_w g_h history points minv maxv i hi, hy] at hfirst
  refine ⟨hfirst, ?_⟩
  clear hfirst hy
  generalize history.getD i 0 = v
  have hpos : 0 < maxv - minv := by linarith
  have hb := normalized_bounds v minv maxv
  have hgh : (0 : ℚ) ≤ (g_h : ℚ) := by exact_mod_cast hh
  refine ⟨normalized_eq_clamp v minv maxv, hb.1, hb.2, ?_, ?_, ?_, ?_, ?_, ?_, ?_⟩
  · intro hv
    rw [normalized_eq_clamp]
    have : (v - minv) / (maxv - minv) ≤ 0 :=
      div_nonpos_of_nonpos_of_nonneg (by linarith) (le_of_lt hpos)
    rw [min_eq_right (by linarith), max_eq_left this]
  · intro hv
    rw [normalized_eq_clamp]
    have : 1 ≤ (v - minv) / (maxv - minv) := (one_le_div hpos).mpr (by linarith)
    rw [min_eq_left this, max_eq_right (by norm_num)]
  · nlinarith [hb.1, hb.2]
  · nlinarith [hb.1, hb.2]
  · norm_num [normalized]
  · norm_num [normalized]
  · norm_num [normalized]

/-- Witness for C8: the CPU chart at g_y = 30 of height 100 with the three samples 50, 0, 120
on the range [0, 100]: for the last sample (i = 2) normalized is 1 and call 27 of
`draw_single_graph` is the line to the top edge, (910, 30). -/
theorem draw_single_graph_vertex_clamped_witness :
    ((0 : ℚ) < 100) ∧ ((0 : Int) ≤ 100) ∧ (2 < 3) ∧
    normalized ([50, 0, 120].getD 2 0) 0 100 = 1 ∧
    (draw_single_graph 10 30 900 100 "CPU Usage (%)" [50, 0, 120] 3 0 100 0.2 0.6 0.95)[25 + 2]?
      = some (Cmd.cairo_line_to 910 30) := by
  have h := draw_single_graph_vertex_clamped 10 30 900 100 "CPU Usage (%)" [50, 0, 120] 3 2
    0 100 0.2 0.6 0.95 (by norm_num) (by norm_num) (by norm_num)
  have h1 : normalized ([50, 0, 120].getD 2 0) 0 100 = 1 := h.2.2.2.2.2.1 (by norm_num)
  refine ⟨by norm_num, by norm_num, by norm_num, h1, ?_⟩
  rw [h.1, h1]
  norm_num [vertex_x]

theorem polyline_one_point (g_x g_y g_w g_h : Int) (history : List ℚ) (minv maxv : ℚ) :
    polyline g_x g_y g_w g_h history 1 minv maxv =
      [Cmd.cairo_move_to ((g_x + g_w : Int) : ℚ)
        (vertex_y g_y g_h (history.getD 0 0) minv maxv)] := by
  simp [polyline, vertex_x, List.range_succ]

theorem draw_single_graph_one_point (g_x g_y g_w g_h : Int) (title : String) (history : List ℚ)
    (minv maxv r g b : ℚ) :
    draw_single_graph g_x g_y g_w g_h title history 1 minv maxv r g b =
      single_point_chart g_x g_y g_w g_h title (history.getD 0 0) minv maxv r g b := by
  have hy : vertex_y g_y g_h (history.getD 0 0) minv maxv
      = (g_y : ℚ) + (g_h : ℚ)
        * (1 - max 0 (min 1 ((history.getD 0 0 - minv) / (maxv - minv)))) := by
    unfold vertex_y
    rw [normalized_eq_clamp]
    ring
  have hl : latest_y g_y g_h history 1 minv maxv
      = (g_y : ℚ) + (g_h : ℚ) * (1 - (history.getD 0 0 - minv) / (maxv - minv)) := by
    unfold latest_y
    simp only [Nat.sub_self]
    ring
  have hx : latest_x g_x g_w 1 = ((g_x + g_w : Int) : ℚ) := by
    simp [latest_x]
  unfold draw_single_graph single_point_chart
  rw [polyline_one_point, hy, hl, hx]
  simp

theorem draw_graph_cairo_count_zero (s : Store) (width height : Int)
    (h : s.history_count = 0) :
    draw_graph_cairo s width height =
      [Cmd.cairo_set_source_rgb 0.06 0.06 0.06,
       Cmd.cairo_rectangle 0 0 (width : ℚ) (height : ℚ),
       Cmd.cairo_fill]
      ++ draw_single_graph 10 (if height - 428 < 30 then 30 else height - 428) (width - 20) 100
          "Temperature (°C)" s.temp_history 1 30 85 0.1 0.9 0.2
      ++ draw_single_graph 10 ((if height - 428 < 30 then 30 else height - 428) + 160)
          (width - 20) 100 "CPU Usage (%)" s.cpu_history 1 0 100 0.2 0.6 0.95
      ++ draw_single_graph 10 ((if height - 428 < 30 then 30 else height - 428) + 320)
          (width - 20) 100 "Memory Used (%)" s.mem_history 1 0 100 0.95 0.5 0.1 := by
  unfold draw_graph_cairo
  rw [h]
  have e1 : height - (GRAPH_HEIGHT * 3 + V_SPACING * 2) - 8 = height - 428 := by
    simp only [GRAPH_HEIGHT, V_SPACING]; omega
  have e2 : width - 2 * GRAPH_MARGIN = width - 20 := by
    simp only [GRAPH_MARGIN]; omega
  simp only [e1, e2, lt_irrefl, gt_iff_lt, if_false]
  have e3 : ∀ y : Int, y + GRAPH_HEIGHT + V_SPACING = y + 160 := by
    intro y; simp only [GRAPH_HEIGHT, V_SPACING]; omega
  have e4 : ∀ y : Int, y + 160 + 160 = y + 320 := by intro y; omega
  simp only [e3, e4]
  rfl

theorem mem_draw_graph_cairo_cpu_chart (s : Store) (h : s.history_count = 0) (c : Cmd)
    (hc : c ∈ [Cmd.cairo_move_to 910
        ((332 : ℚ) + 100 * (1 - max 0 (min 1 ((s.cpu_history.getD 0 0 - 0) / (100 - 0))))),
      Cmd.cairo_set_source_rgb 0.2 0.6 0.95,
      Cmd.cairo_set_line_width 2,
      Cmd.cairo_stroke,
      Cmd.cairo_arc 910 ((332 : ℚ) + 100 * (1 - (s.cpu_history.getD 0 0 - 0) / (100 - 0))) 3 0 2,
      Cmd.cairo_fill]) :
    c ∈ draw_graph_cairo s 920 600 := by
  rw [draw_graph_cairo_count_zero s 920 600 h]
  apply List.mem_append_left
  apply List.mem_append_right
  rw [draw_single_graph_one_point]
  unfold single_point_chart
  apply List.mem_append_left
  apply List.mem_append_right
  norm_num at hc ⊢
  exact hc

/-- C9 as stated fails: with `history_count = 0` (surface 920 x 600) the CPU sub-chart still
receives a polyline vertex (a `cairo_move_to` at the right edge x = 910) and a latest-point
marker (`cairo_arc`), and their height is that of cell `cpu_history[0]`: y = 432 when the cell
holds 0, y = 382 when it holds 50. -/
theorem draw_graph_cairo_empty_store_draws_point :
    zero_store.history_count = 0 ∧
    Cmd.cairo_move_to 910 432 ∈ draw_graph_cairo zero_store 920 600 ∧
    Cmd.cairo_arc 910 432 3 0 2 ∈ draw_graph_cairo zero_store 920 600 ∧
    zero_store_cpu50.history_count = 0 ∧
    Cmd.cairo_move_to 910 382 ∈ draw_graph_cairo zero_store_cpu50 920 600 ∧
    Cmd.cairo_arc 910 382 3 0 2 ∈ draw_graph_cairo zero_store_cpu50 920 600 := by
  have h0 : zero_store.cpu_history.getD 0 0 = 0 := by decide
  have h50 : zero_store_cpu50.cpu_history.getD 0 0 = 50 := by decide
  refine ⟨rfl, ?_, ?_, rfl, ?_, ?_⟩
  · apply mem_draw_graph_cairo_cpu_chart zero_store rfl
    rw [h0]; norm_num
  · apply mem_draw_graph_cairo_cpu_chart zero_store rfl
    rw [h0]; norm_num
  · apply mem_draw_graph_cairo_cpu_chart zero_store_cpu50 rfl
    rw [h50]; norm_num
  · apply mem_draw_graph_cairo_cpu_chart zero_store_cpu50 rfl
    rw [h50]; norm_num

/-- C9 amended: with `history_count = 0`, for every surface width and height,
`draw_graph_cairo` draws the three sub-charts as one-point series taken from cell 0 of each
array: each has background, border, grid, min/max labels and title, one polyline vertex (a
lone `cairo_move_to` at the right edge, no `cairo_line_to`) and one latest-point marker. -/
theorem draw_graph_cairo_empty_store (s : Store) (width height : Int)
    (h : s.history_count = 0) :
    draw_graph_cairo s width height =
      [Cmd.cairo_set_source_rgb 0.06 0.06 0.06,
       Cmd.cairo_rectangle 0 0 (width : ℚ) (height : ℚ),
       Cmd.cairo_fill]
      ++ single_point_chart 10 (if height - 428 < 30 then 30 else height - 428) (width - 20) 100
          "Temperature (°C)" (s.temp_history.getD 0 0) 30 85 0.1 0.9 0.2
      ++ single_point_chart 10 ((if height - 428 < 30 then 30 else height - 428) + 160)
          (width - 20) 100 "CPU Usage (%)" (s.cpu_history.getD 0 0) 0 100 0.2 0.6 0.95
      ++ single_point_chart 10 ((if height - 428 < 30 then 30 else height - 428) + 320)
          (width - 20) 100 "Memory Used (%)" (s.mem_history.getD 0 0) 0 100 0.95 0.5 0.1 := by
  rw [draw_graph_cairo_count_zero s width height h, draw_single_graph_one_point,
    draw_single_graph_one_point, draw_single_graph_one_point]

/-- Witness for C9 amended: the zero-initialised store on a 920 x 600 surface. -/
theorem draw_graph_cairo_empty_store_witness :
    zero_store.history_count = 0 ∧
    draw_graph_cairo zero_store 920 600 =
      [Cmd.cairo_set_source_rgb 0.06 0.06 0.06,
       Cmd.cairo_rectangle 0 0 ((920 : Int) : ℚ) ((600 : Int) : ℚ),
       Cmd.cairo_fill]
      ++ single_point_chart 10 (if (600 : Int) - 428 < 30 then 30 else 600 - 428) (920 - 20) 100
          "Temperature (°C)" (zero_store.temp_history.getD 0 0) 30 85 0.1 0.9 0.2
      ++ single_point_chart 10 ((if (600 : Int) - 428 < 30 then 30 else 600 - 428) + 160)
          (920 - 20) 100 "CPU Usage (%)" (zero_store.cpu_history.getD 0 0) 0 100 0.2 0.6 0.95
      ++ single_point_chart 10 ((if (600 : Int) - 428 < 30 then 30 else 600 - 428) + 320)
          (920 - 20) 100 "Memory Used (%)" (zero_store.mem_history.getD 0 0) 0 100 0.95 0.5 0.1 :=
  ⟨rfl, draw_graph_cairo_empty_store zero_store 920 600 rfl⟩

/-- C10 (the code at the failing input): temperature chart at g_y = 172 of height 100, range
[30, 85], history (40, 0) with `points = 2`; 0 is the value stored when no temperature could
be read. The last polyline vertex is (910, 272), clamped to the chart bottom g_y + g_h = 272,
but the marker is centred at (910, 3592/11), about 326.5: outside the chart, because
`latest_y` does not clamp. -/
theorem draw_single_graph_marker_not_clamped :
    draw_single_graph 10 172 900 100 "Temperature (°C)" [40, 0] 2 30 85 0.1 0.9 0.2 =
      chart_frame 10 172 900 100 30 85
      ++ [Cmd.cairo_move_to 10 (2792 / 11),
          Cmd.cairo_line_to 910 272,
          Cmd.cairo_set_source_rgb 0.1 0.9 0.2,
          Cmd.cairo_set_line_width 2,
          Cmd.cairo_stroke,
          Cmd.cairo_arc 910 (3592 / 11) 3 0 2,
          Cmd.cairo_fill]
      ++ chart_title 10 172 "Temperature (°C)" ∧
    vertex_y 172 100 0 30 85 = 272 ∧
    latest_y 172 100 [40, 0] 2 30 85 = 3592 / 11 ∧
    ((172 : ℚ) + 100 < 3592 / 11) := by
  refine ⟨?_, ?_, ?_, ?_⟩
  · unfold draw_single_graph polyline
    simp only [List.range_succ, List.range_zero, List.nil_append, List.map_append, List.map_cons,
      List.map_nil, List.cons_append]
    norm_num [vertex_x, vertex_y, normalized, latest_x, latest_y]
  · norm_num [vertex_y, normalized]
  · norm_num [latest_y]
  · norm_num

end HwStats
